import Mathlib

/-!
# Stackdriver access-log batching logger

A shallow embedding of `src/extensions/stackdriver/log/logger.cc`
(`Extensions::Stackdriver::Log::Logger`) and the properties of its batching
logic: entry construction (`addLogEntry`), sealing of the current
`WriteLogEntriesRequest` (`flush`) and hand-off of the queued requests to the
exporter (`exportLogEntry`).

Conventions of the embedding.

* Protobuf `map<string, string>` fields are association lists with unique keys
  (`mapFind`, `mapSet`).
* `absl::Time` and `absl::Duration` are whole numbers of nanoseconds (`Int`).
* Machine integers are mathematical integers; where the code stores a wider
  value into an `int` or `int32` the value is reduced with `wrapInt32`.
* The logger object is a record of its data members; every member function is a
  function from the record to the new record (and the returned value).
* The exporter is an external collaborator.  Its state is a type parameter `σ`
  of the logger and its virtual method `exportLogs` is a function
  `σ → List WriteLogEntriesRequest → σ`; `recordLogs` is the exporter that only
  remembers the argument of every call.
* What `logger.cc` uses but does not define (the constants and helpers of
  `extensions/stackdriver/common`, `AuthenticationPolicyString`, and the
  protobuf `ByteSizeLong`) is collected in `Deps` and is a parameter of the
  development.
-/

namespace Extensions.Stackdriver.Log

/-! ## Data model -/

/-- Protobuf `map<string, string>`: an association list, one pair per key. -/
abbrev StringMap := List (String × String)

/-- Lookup, `m.find(k)`: `none` stands for `m.end()`. -/
def mapFind : StringMap → String → Option String
  | [], _ => none
  | (k', v) :: t, k => if k' = k then some v else mapFind t k

/-- Assignment, `m[k] = v`: overwrites the value of an existing key, inserts otherwise. -/
def mapSet : StringMap → String → String → StringMap
  | [], k, v => [(k, v)]
  | (k', v') :: t, k, v => if k' = k then (k, v) :: t else (k', v') :: mapSet t k v

/-- Conversion to a 32-bit signed integer (`int`, `int32`): the value modulo
`2^32` in the range from `-2^31` to `2^31 - 1`. -/
def wrapInt32 (x : Int) : Int := (x + 2147483648) % 4294967296 - 2147483648

/-- The value is representable as a 32-bit signed integer. -/
def fitsInt32 (x : Int) : Bool := decide (-2147483648 ≤ x) && decide (x < 2147483648)

/-- The fields of `wasm::common::NodeInfo` read by the logger. -/
structure NodeInfo where
  name : String
  workload_name : String
  namespace_ : String
  mesh_id : String
  labels : StringMap
  platform_metadata : StringMap
  deriving DecidableEq, Repr

/-- The fields of `Wasm::Common::RequestInfo` read by `addLogEntry`.
`start_time` is in nanoseconds since the Unix epoch, `duration` in nanoseconds,
`service_auth_policy` is the value of the policy enumeration, `response_code`
is an unsigned 32-bit value. -/
structure RequestInfo where
  start_time : Int
  request_id : String
  destination_service_host : String
  response_flag : String
  destination_principal : String
  source_principal : String
  service_auth_policy : Int
  request_operation : String
  url_scheme : String
  url_host : String
  url_path : String
  request_size : Int
  response_code : Int
  response_size : Int
  user_agent : String
  source_address : String
  destination_address : String
  request_protocol : String
  duration : Int
  referer : String
  b3_trace_sampled : Bool
  b3_trace_id : String
  b3_span_id : String
  deriving DecidableEq, Repr

/-- Message `google.api.MonitoredResource`. -/
structure MonitoredResource where
  type : String
  labels : StringMap
  deriving DecidableEq, Repr

/-- Enumeration `google.logging.type.LogSeverity`. -/
inductive LogSeverity where
  | DEFAULT | DEBUG | INFO | NOTICE | WARNING | ERROR | CRITICAL | ALERT | EMERGENCY
  deriving DecidableEq, Repr

/-- Messages `google.protobuf.Timestamp` and `google.protobuf.Duration`. -/
structure SecondsNanos where
  seconds : Int
  nanos : Int
  deriving DecidableEq, Repr

/-- Message `google.logging.type.HttpRequest`, the fields set by the logger. -/
structure HttpRequest where
  request_method : String
  request_url : String
  request_size : Int
  status : Int
  response_size : Int
  user_agent : String
  remote_ip : String
  server_ip : String
  protocol : String
  latency : SecondsNanos
  referer : String
  deriving DecidableEq, Repr

/-- Message `google.logging.v2.LogEntry`, the fields set by the logger. -/
structure LogEntry where
  timestamp : SecondsNanos
  severity : LogSeverity
  labels : StringMap
  http_request : HttpRequest
  trace : String
  span_id : String
  trace_sampled : Bool
  deriving DecidableEq, Repr

/-- Message `google.logging.v2.WriteLogEntriesRequest`: one batch. -/
structure WriteLogEntriesRequest where
  log_name : String
  resource : MonitoredResource
  labels : StringMap
  entries : List LogEntry
  deriving DecidableEq, Repr

/-- What `logger.cc` takes from other translation units: the metadata keys and
resource type names of `extensions/stackdriver/common/constants.h`,
`Common::getMonitoredResource`, `Wasm::Common::AuthenticationPolicyString` and
the protobuf size computation `LogEntry::ByteSizeLong` (a `size_t`). -/
structure Deps where
  kGCPProjectKey : String
  kGCPClusterNameKey : String
  kContainerMonitoredResource : String
  kGCEInstanceMonitoredResource : String
  getMonitoredResource : String → NodeInfo → MonitoredResource
  AuthenticationPolicyString : Int → String
  ByteSizeLong : LogEntry → Nat

/-- Name of the HTTP server access log. -/
def kServerAccessLogName : String := "server-accesslog-stackdriver"

/-- The data members of `Logger`.  `size_` and `log_request_size_limit_` are
`int` members (the limit is the constructor's `int` argument): `addLogEntry`
reduces the accumulator to 32 bits when it stores it.  `exporter_` is the state
of the exporter object the logger owns.  The class declaration (`logger.h`) is
not among the sources: the members are those `logger.cc` uses, and the
accumulator is an integer as in the data model of the specification. -/
structure Logger (σ : Type) where
  log_entries_request_ : WriteLogEntriesRequest
  request_queue_ : List WriteLogEntriesRequest
  size_ : Int
  log_request_size_limit_ : Int
  project_id_ : String
  exporter_ : σ
  deriving DecidableEq, Repr

/-! ## absl time helpers -/

/-- One second in nanoseconds. -/
def nanosPerSecond : Int := 1000000000

/-- The function `absl::ToUnixSeconds`: whole seconds since the epoch, rounded down. -/
def ToUnixSeconds (t : Int) : Int := Int.fdiv t nanosPerSecond

/-- The function `absl::FromUnixSeconds`. -/
def FromUnixSeconds (s : Int) : Int := s * nanosPerSecond

/-- The function `absl::IDivDuration(num, den, &rem)`: quotient truncated toward zero
and the remainder, as a pair. -/
def IDivDuration (num den : Int) : Int × Int := (Int.tdiv num den, Int.tmod num den)

/-! ## The member functions -/

/-- The constructor `Logger::Logger` (lines 40-87). -/
def newLogger {σ : Type} (env : Deps) (local_node_info : NodeInfo) (exporter : σ)
    (log_request_size_limit : Int) : Logger σ :=
  let platform_metadata := local_node_info.platform_metadata
  let project_id_ : String :=
    match mapFind platform_metadata env.kGCPProjectKey with
    | some v => v
    | none => ""
  let log_name := "projects/" ++ project_id_ ++ "/logs/" ++ kServerAccessLogName
  let resource_type : String :=
    match mapFind platform_metadata env.kGCPClusterNameKey with
    | none => env.kGCEInstanceMonitoredResource
    | some _ => env.kContainerMonitoredResource
  let monitored_resource := env.getMonitoredResource resource_type local_node_info
  let label_map : StringMap := []
  let label_map := mapSet label_map "destination_name" local_node_info.name
  let label_map := mapSet label_map "destination_workload" local_node_info.workload_name
  let label_map := mapSet label_map "destination_namespace" local_node_info.namespace_
  let label_map := mapSet label_map "mesh_uid" local_node_info.mesh_id
  let local_labels := local_node_info.labels
  let label_map :=
    match mapFind local_labels "version" with
    | some v => mapSet label_map "destination_version" v
    | none => label_map
  let label_map :=
    match mapFind local_labels "app" with
    | some v => mapSet label_map "destination_app" v
    | none => label_map
  { log_entries_request_ :=
      { log_name := log_name, resource := monitored_resource, labels := label_map,
        entries := [] }
    request_queue_ := []
    size_ := 0
    log_request_size_limit_ := log_request_size_limit
    project_id_ := project_id_
    exporter_ := exporter }

/-- The entry `addLogEntry` builds in place at the end of the current request
(lines 92-151). -/
def buildLogEntry (env : Deps) (project_id_ : String) (request_info : RequestInfo)
    (peer_node_info : NodeInfo) : LogEntry :=
  let s := ToUnixSeconds request_info.start_time
  let timestamp : SecondsNanos :=
    { seconds := s, nanos := Int.tdiv (request_info.start_time - FromUnixSeconds s) 1 }
  let label_map : StringMap := []
  let label_map := mapSet label_map "request_id" request_info.request_id
  let label_map := mapSet label_map "source_name" peer_node_info.name
  let label_map := mapSet label_map "source_workload" peer_node_info.workload_name
  let label_map := mapSet label_map "source_namespace" peer_node_info.namespace_
  let peer_labels := peer_node_info.labels
  let label_map :=
    match mapFind peer_labels "version" with
    | some v => mapSet label_map "source_version" v
    | none => label_map
  let label_map :=
    match mapFind peer_labels "app" with
    | some v => mapSet label_map "source_app" v
    | none => label_map
  let label_map :=
    mapSet label_map "destination_service_host" request_info.destination_service_host
  let label_map := mapSet label_map "response_flag" request_info.response_flag
  let label_map := mapSet label_map "destination_principal" request_info.destination_principal
  let label_map := mapSet label_map "source_principal" request_info.source_principal
  let label_map := mapSet label_map "service_authentication_policy"
    (env.AuthenticationPolicyString request_info.service_auth_policy)
  let duration := request_info.duration
  let secs := IDivDuration duration nanosPerSecond
  let duration := secs.2
  let nanos := IDivDuration duration 1
  let http_request : HttpRequest :=
    { request_method := request_info.request_operation
      request_url := request_info.url_scheme ++ "://" ++ request_info.url_host ++
        request_info.url_path
      request_size := request_info.request_size
      status := wrapInt32 request_info.response_code
      response_size := request_info.response_size
      user_agent := request_info.user_agent
      remote_ip := request_info.source_address
      server_ip := request_info.destination_address
      protocol := request_info.request_protocol
      latency := { seconds := secs.1, nanos := nanos.1 }
      referer := request_info.referer }
  { timestamp := timestamp
    severity := LogSeverity.INFO
    labels := label_map
    http_request := http_request
    trace :=
      if request_info.b3_trace_sampled then
        "projects/" ++ project_id_ ++ "/traces/" ++ request_info.b3_trace_id
      else ""
    span_id := if request_info.b3_trace_sampled then request_info.b3_span_id else ""
    trace_sampled :=
      if request_info.b3_trace_sampled then request_info.b3_trace_sampled else false }

/-- The member `Logger::flush` (lines 161-181): the returned flag and the new state. -/
def Logger.flush {σ : Type} (s : Logger σ) : Bool × Logger σ :=
  if s.size_ = 0 then
    (false, s)
  else
    let cur : WriteLogEntriesRequest :=
      { log_name := s.log_entries_request_.log_name
        resource := s.log_entries_request_.resource
        labels := s.log_entries_request_.labels
        entries := [] }
    (true,
      { s with
        log_entries_request_ := cur
        request_queue_ := s.request_queue_ ++ [s.log_entries_request_]
        size_ := 0 })

/-- The member `Logger::addLogEntry` (lines 89-159).  Line 155 adds the `size_t`
size of the new entry to the `int` accumulator and stores the sum back into
the `int`. -/
def Logger.addLogEntry {σ : Type} (env : Deps) (s : Logger σ) (request_info : RequestInfo)
    (peer_node_info : NodeInfo) : Logger σ :=
  let new_entry := buildLogEntry env s.project_id_ request_info peer_node_info
  let s1 : Logger σ :=
    { s with
      log_entries_request_ :=
        { s.log_entries_request_ with
          entries := s.log_entries_request_.entries ++ [new_entry] }
      size_ := wrapInt32 (s.size_ + (env.ByteSizeLong new_entry : Int)) }
  if s1.size_ > s1.log_request_size_limit_ then s1.flush.2 else s1

/-- The member `Logger::exportLogEntry` (lines 183-190), for an exporter whose
`exportLogs` method is `exportLogs`. -/
def Logger.exportLogEntry {σ : Type} (exportLogs : σ → List WriteLogEntriesRequest → σ)
    (s : Logger σ) : Logger σ :=
  let r := s.flush
  if (!r.1) && r.2.request_queue_.isEmpty then
    r.2
  else
    { r.2 with
      exporter_ := exportLogs r.2.exporter_ r.2.request_queue_
      request_queue_ := [] }

/-! ## Call sequences -/

/-- One call on a logger. -/
inductive Call where
  | addLogEntry (request_info : RequestInfo) (peer_node_info : NodeInfo)
  | flush
  | exportLogEntry
  deriving DecidableEq, Repr

/-- The state after one call. -/
def Logger.step {σ : Type} (env : Deps) (exportLogs : σ → List WriteLogEntriesRequest → σ)
    (s : Logger σ) : Call → Logger σ
  | Call.addLogEntry request_info peer_node_info => s.addLogEntry env request_info peer_node_info
  | Call.flush => s.flush.2
  | Call.exportLogEntry => s.exportLogEntry exportLogs

/-- The state after a sequence of calls, first call first. -/
def Logger.run {σ : Type} (env : Deps) (exportLogs : σ → List WriteLogEntriesRequest → σ)
    (s : Logger σ) (calls : List Call) : Logger σ :=
  calls.foldl (Logger.step env exportLogs) s

/-- No `addLogEntry` call of the sequence overflows the accumulator: at each such
call the exact sum of the accumulator and the size of the new entry is
representable as an `int`. -/
def Logger.noOverflow {σ : Type} (env : Deps)
    (exportLogs : σ → List WriteLogEntriesRequest → σ) : Logger σ → List Call → Bool
  | _, [] => true
  | s, Call.addLogEntry request_info peer_node_info :: cs =>
      fitsInt32 (s.size_ +
          (env.ByteSizeLong (buildLogEntry env s.project_id_ request_info peer_node_info) :
            Int)) &&
        Logger.noOverflow env exportLogs (s.addLogEntry env request_info peer_node_info) cs
  | s, c :: cs => Logger.noOverflow env exportLogs (s.step env exportLogs c) cs

/-- The exporter that records the argument of every `exportLogs` call, oldest first. -/
def recordLogs (log : List (List WriteLogEntriesRequest)) (q : List WriteLogEntriesRequest) :
    List (List WriteLogEntriesRequest) :=
  log ++ [q]

/-! ## Quantities the properties speak about -/

/-- The entries of a sequence of batches, in queue order. -/
def entriesOf (q : List WriteLogEntriesRequest) : List LogEntry :=
  (q.map fun r => r.entries).flatten

/-- The entries the logger still holds: those of the pending queue, oldest batch
first, followed by those of the current batch. -/
def Logger.pendingEntries {σ : Type} (s : Logger σ) : List LogEntry :=
  entriesOf s.request_queue_ ++ s.log_entries_request_.entries

/-- Number of entries over all batches of the pending queue plus the current batch. -/
def Logger.totalEntries {σ : Type} (s : Logger σ) : Nat :=
  ((s.request_queue_.map fun r => r.entries.length).sum) +
    s.log_entries_request_.entries.length

/-- Sum of the estimated serialized sizes of a list of entries. -/
def sizeSum (env : Deps) (es : List LogEntry) : Int :=
  (((es.map env.ByteSizeLong).sum : Nat) : Int)

/-- The template fields of a batch: the batch without its entries. -/
def template (r : WriteLogEntriesRequest) : WriteLogEntriesRequest :=
  { r with entries := [] }

/-- The calls that add one entry per element of `reqs`, in order. -/
def addCalls (reqs : List (RequestInfo × NodeInfo)) : List Call :=
  reqs.map fun r => Call.addLogEntry r.1 r.2

/-- The entries built by the `addLogEntry` calls of a call sequence, in call order,
for a logger whose project id is `project_id_`. -/
def builtEntries (env : Deps) (project_id_ : String) : List Call → List LogEntry
  | [] => []
  | Call.addLogEntry request_info peer_node_info :: cs =>
      buildLogEntry env project_id_ request_info peer_node_info ::
        builtEntries env project_id_ cs
  | _ :: cs => builtEntries env project_id_ cs

/-- The accumulator agrees with the current batch: it is the sum of the sizes of
the entries of the current batch, and each of them carries severity `INFO`. -/
def Logger.Consistent {σ : Type} (env : Deps) (s : Logger σ) : Prop :=
  s.size_ = sizeSum env s.log_entries_request_.entries ∧
    ∀ e ∈ s.log_entries_request_.entries, e.severity = LogSeverity.INFO

/-- Two batches carry the same template fields: log name, monitored resource and
common labels. -/
def sameTemplate (r r0 : WriteLogEntriesRequest) : Prop :=
  r.log_name = r0.log_name ∧ r.resource = r0.resource ∧ r.labels = r0.labels

/-- Every batch the logger holds, and every batch its recording exporter has
received, carries the template fields of `r0`. -/
def Logger.TemplateInv (r0 : WriteLogEntriesRequest)
    (s : Logger (List (List WriteLogEntriesRequest))) : Prop :=
  sameTemplate s.log_entries_request_ r0 ∧
    (∀ r ∈ s.request_queue_, sameTemplate r r0) ∧
    ∀ q ∈ s.exporter_, ∀ r ∈ q, sameTemplate r r0

/-- The local `resource_type` of the constructor (lines 55-60): the container
resource type, replaced by the GCE instance type when the platform metadata has
no cluster name. -/
def resource_type (env : Deps) (local_node_info : NodeInfo) : String :=
  match mapFind local_node_info.platform_metadata env.kGCPClusterNameKey with
  | none => env.kGCEInstanceMonitoredResource
  | some _ => env.kContainerMonitoredResource

/-- Every entry of the current batch was built by `addLogEntry` of this logger. -/
def Logger.EntriesBuilt {σ : Type} (env : Deps) (s : Logger σ) : Prop :=
  ∀ e ∈ s.log_entries_request_.entries,
    ∃ (request_info : RequestInfo) (peer_node_info : NodeInfo),
      e = buildLogEntry env s.project_id_ request_info peer_node_info

/-- No batch of the pending queue, and no batch the recording exporter has
received, is without entries. -/
def Logger.NoEmptyBatch (s : Logger (List (List WriteLogEntriesRequest))) : Prop :=
  (∀ r ∈ s.request_queue_, r.entries ≠ []) ∧ ∀ q ∈ s.exporter_, ∀ r ∈ q, r.entries ≠ []

/-! ## Sample inputs for concrete evaluations -/

/-- A sample environment: identifiers in the style of the Stackdriver constants,
a resource that only records its type, and a size estimate of 400 bytes for
every entry. -/
def sampleDeps : Deps :=
  { kGCPProjectKey := "gcp_project"
    kGCPClusterNameKey := "gcp_gke_cluster_name"
    kContainerMonitoredResource := "k8s_container"
    kGCEInstanceMonitoredResource := "gce_instance"
    getMonitoredResource := fun t _ => { type := t, labels := [] }
    AuthenticationPolicyString := fun _ => "NONE"
    ByteSizeLong := fun _ => 400 }

/-- A sample local or peer node. -/
def sampleNode : NodeInfo :=
  { name := "n", workload_name := "w", namespace_ := "ns", mesh_id := "m",
    labels := [("app", "a")], platform_metadata := [("gcp_project", "p")] }

/-- A sample request. -/
def sampleRequest : RequestInfo :=
  { start_time := 1500000000, request_id := "r", destination_service_host := "h",
    response_flag := "-", destination_principal := "", source_principal := "",
    service_auth_policy := 0, request_operation := "GET", url_scheme := "http",
    url_host := "h", url_path := "/", request_size := 0, response_code := 200,
    response_size := 0, user_agent := "", source_address := "", destination_address := "",
    request_protocol := "HTTP", duration := 2500000000, referer := "",
    b3_trace_sampled := false, b3_trace_id := "", b3_span_id := "" }

/-- A freshly constructed sample logger with limit 1000 and a recording exporter. -/
def sampleLogger : Logger (List (List WriteLogEntriesRequest)) :=
  newLogger sampleDeps sampleNode [] 1000

/-! ## Basic facts about the member functions -/

section Basic

variable {σ : Type}

theorem flush_zero (s : Logger σ) (h : s.size_ = 0) : s.flush = (false, s) := by
  simp [Logger.flush, h]

theorem flush_nonzero (s : Logger σ) (h : s.size_ ≠ 0) :
    s.flush = (true,
      { s with
        log_entries_request_ := template s.log_entries_request_
        request_queue_ := s.request_queue_ ++ [s.log_entries_request_]
        size_ := 0 }) := by
  simp [Logger.flush, h, template]

theorem entriesOf_append (p q : List WriteLogEntriesRequest) :
    entriesOf (p ++ q) = entriesOf p ++ entriesOf q := by
  simp [entriesOf]

theorem entriesOf_singleton (r : WriteLogEntriesRequest) : entriesOf [r] = r.entries := by
  simp [entriesOf]

theorem totalEntries_eq_length (s : Logger σ) : s.totalEntries = s.pendingEntries.length := by
  simp only [Logger.totalEntries, Logger.pendingEntries, entriesOf, List.length_append,
    List.length_flatten, List.map_map]
  rfl

theorem flush_pendingEntries (s : Logger σ) : s.flush.2.pendingEntries = s.pendingEntries := by
  by_cases h : s.size_ = 0
  · rw [flush_zero s h]
  · rw [flush_nonzero s h]
    simp [Logger.pendingEntries, entriesOf_append, entriesOf_singleton, template]

theorem flush_project_id (s : Logger σ) : s.flush.2.project_id_ = s.project_id_ := by
  by_cases h : s.size_ = 0
  · rw [flush_zero s h]
  · rw [flush_nonzero s h]

theorem addLogEntry_pendingEntries (env : Deps) (s : Logger σ) (request_info : RequestInfo)
    (peer_node_info : NodeInfo) :
    (s.addLogEntry env request_info peer_node_info).pendingEntries =
      s.pendingEntries ++ [buildLogEntry env s.project_id_ request_info peer_node_info] := by
  unfold Logger.addLogEntry
  simp only
  split
  · rw [flush_pendingEntries]
    simp [Logger.pendingEntries]
  · simp [Logger.pendingEntries]

theorem addLogEntry_project_id (env : Deps) (s : Logger σ) (request_info : RequestInfo)
    (peer_node_info : NodeInfo) :
    (s.addLogEntry env request_info peer_node_info).project_id_ = s.project_id_ := by
  unfold Logger.addLogEntry
  simp only
  split
  · rw [flush_project_id]
  · rfl

theorem exportLogEntry_project_id (exportLogs : σ → List WriteLogEntriesRequest → σ)
    (s : Logger σ) : (s.exportLogEntry exportLogs).project_id_ = s.project_id_ := by
  unfold Logger.exportLogEntry
  simp only
  split
  · rw [flush_project_id]
  · simp [flush_project_id]

theorem step_project_id (env : Deps) (exportLogs : σ → List WriteLogEntriesRequest → σ)
    (s : Logger σ) (c : Call) : (s.step env exportLogs c).project_id_ = s.project_id_ := by
  cases c with
  | addLogEntry request_info peer_node_info => exact addLogEntry_project_id env s _ _
  | flush => exact flush_project_id s
  | exportLogEntry => exact exportLogEntry_project_id exportLogs s

theorem run_nil (env : Deps) (exportLogs : σ → List WriteLogEntriesRequest → σ)
    (s : Logger σ) : s.run env exportLogs [] = s := rfl

theorem run_cons (env : Deps) (exportLogs : σ → List WriteLogEntriesRequest → σ)
    (s : Logger σ) (c : Call) (cs : List Call) :
    s.run env exportLogs (c :: cs) = (s.step env exportLogs c).run env exportLogs cs := rfl

theorem run_project_id (env : Deps) (exportLogs : σ → List WriteLogEntriesRequest → σ)
    (cs : List Call) (s : Logger σ) : (s.run env exportLogs cs).project_id_ = s.project_id_ := by
  induction cs generalizing s with
  | nil => rfl
  | cons c cs ih => rw [run_cons, ih, step_project_id]

theorem builtEntries_addCalls (env : Deps) (pid : String) (reqs : List (RequestInfo × NodeInfo)) :
    builtEntries env pid (addCalls reqs) = reqs.map fun r => buildLogEntry env pid r.1 r.2 := by
  induction reqs with
  | nil => rfl
  | cons r rs ih =>
    simp only [addCalls, List.map_cons, builtEntries] at ih ⊢
    rw [ih]

theorem run_addCalls_pendingEntries (env : Deps)
    (exportLogs : σ → List WriteLogEntriesRequest → σ) (reqs : List (RequestInfo × NodeInfo))
    (s : Logger σ) :
    (s.run env exportLogs (addCalls reqs)).pendingEntries =
      s.pendingEntries ++ reqs.map fun r => buildLogEntry env s.project_id_ r.1 r.2 := by
  induction reqs generalizing s with
  | nil => simp [addCalls, run_nil]
  | cons r rs ih =>
    have h : addCalls (r :: rs) = Call.addLogEntry r.1 r.2 :: addCalls rs := rfl
    rw [h, run_cons, ih]
    simp only [Logger.step, addLogEntry_pendingEntries, addLogEntry_project_id]
    simp

theorem wrapInt32_of_fits (x : Int) (h : fitsInt32 x = true) : wrapInt32 x = x := by
  simp only [fitsInt32, Bool.and_eq_true, decide_eq_true_eq] at h
  unfold wrapInt32
  omega

theorem noOverflow_add (env : Deps) (exportLogs : σ → List WriteLogEntriesRequest → σ)
    (s : Logger σ) (request_info : RequestInfo) (peer_node_info : NodeInfo) (cs : List Call) :
    Logger.noOverflow env exportLogs s (Call.addLogEntry request_info peer_node_info :: cs) =
      (fitsInt32 (s.size_ +
          (env.ByteSizeLong (buildLogEntry env s.project_id_ request_info peer_node_info) :
            Int)) &&
        Logger.noOverflow env exportLogs (s.addLogEntry env request_info peer_node_info) cs) :=
  rfl

theorem noOverflow_flush (env : Deps) (exportLogs : σ → List WriteLogEntriesRequest → σ)
    (s : Logger σ) (cs : List Call) :
    Logger.noOverflow env exportLogs s (Call.flush :: cs) =
      Logger.noOverflow env exportLogs s.flush.2 cs := rfl

theorem noOverflow_export (env : Deps) (exportLogs : σ → List WriteLogEntriesRequest → σ)
    (s : Logger σ) (cs : List Call) :
    Logger.noOverflow env exportLogs s (Call.exportLogEntry :: cs) =
      Logger.noOverflow env exportLogs (s.exportLogEntry exportLogs) cs := rfl

theorem noOverflow_cons (env : Deps) (exportLogs : σ → List WriteLogEntriesRequest → σ)
    (s : Logger σ) (c : Call) (cs : List Call) :
    Logger.noOverflow env exportLogs s (c :: cs) =
      (Logger.noOverflow env exportLogs s [c] &&
        Logger.noOverflow env exportLogs (s.step env exportLogs c) cs) := by
  cases c with
  | addLogEntry request_info peer_node_info =>
    simp only [noOverflow_add, Logger.noOverflow, Bool.and_true, Logger.step]
  | flush => simp only [noOverflow_flush, Logger.noOverflow, Bool.true_and, Logger.step]
  | exportLogEntry =>
    simp only [noOverflow_export, Logger.noOverflow, Bool.true_and, Logger.step]

end Basic

/-! ## Entry conservation -/

/-- C1. Entry conservation: on a freshly constructed logger, for every limit,
after any finite sequence of `addLogEntry` calls (no export in between) the
number of entries over all batches of the pending queue plus the current batch
equals the number of calls made; the entries held are exactly the entries built
by the calls, in call order, so none is lost or duplicated; and a single call
on any state adds exactly one entry. -/
theorem addLogEntry_conserves_entries {σ : Type} (env : Deps)
    (exportLogs : σ → List WriteLogEntriesRequest → σ) (local_node_info : NodeInfo)
    (exporter : σ) (limit : Int) (reqs : List (RequestInfo × NodeInfo)) :
    ((newLogger env local_node_info exporter limit).run env exportLogs
        (addCalls reqs)).totalEntries = reqs.length ∧
    ((newLogger env local_node_info exporter limit).run env exportLogs
        (addCalls reqs)).pendingEntries =
      reqs.map (fun r => buildLogEntry env
        (newLogger env local_node_info exporter limit).project_id_ r.1 r.2) ∧
    ∀ (s : Logger σ) (request_info : RequestInfo) (peer_node_info : NodeInfo),
      (s.addLogEntry env request_info peer_node_info).totalEntries = s.totalEntries + 1 := by
  have hp := run_addCalls_pendingEntries env exportLogs reqs
    (newLogger env local_node_info exporter limit)
  have h0 : (newLogger env local_node_info exporter limit).pendingEntries = [] := by
    simp [Logger.pendingEntries, newLogger, entriesOf]
  rw [h0, List.nil_append] at hp
  refine ⟨?_, hp, ?_⟩
  · rw [totalEntries_eq_length, hp, List.length_map]
  · intro s request_info peer_node_info
    rw [totalEntries_eq_length, totalEntries_eq_length, addLogEntry_pendingEntries]
    simp

/-! ## The accumulator and the current batch -/

section Invariant

variable {σ : Type}

theorem sizeSum_nil (env : Deps) : sizeSum env [] = 0 := by
  simp [sizeSum]

theorem sizeSum_append (env : Deps) (es fs : List LogEntry) :
    sizeSum env (es ++ fs) = sizeSum env es + sizeSum env fs := by
  simp [sizeSum]

theorem sizeSum_singleton (env : Deps) (e : LogEntry) :
    sizeSum env [e] = (env.ByteSizeLong e : Int) := by
  simp [sizeSum]

theorem sizeSum_nonneg (env : Deps) (es : List LogEntry) : 0 ≤ sizeSum env es := by
  unfold sizeSum
  omega

theorem consistent_newLogger (env : Deps) (local_node_info : NodeInfo) (exporter : σ)
    (limit : Int) : (newLogger env local_node_info exporter limit).Consistent env := by
  constructor
  · simp [newLogger, sizeSum]
  · intro e he
    simp [newLogger] at he

theorem consistent_flush (env : Deps) (s : Logger σ) (h : s.Consistent env) :
    s.flush.2.Consistent env := by
  by_cases hz : s.size_ = 0
  · rw [flush_zero s hz]
    exact h
  · rw [flush_nonzero s hz]
    constructor
    · simp [template, sizeSum]
    · intro e he
      simp [template] at he

theorem consistent_addLogEntry (env : Deps) (s : Logger σ) (request_info : RequestInfo)
    (peer_node_info : NodeInfo) (h : s.Consistent env)
    (hfit : fitsInt32 (s.size_ +
      (env.ByteSizeLong (buildLogEntry env s.project_id_ request_info peer_node_info) : Int)) =
        true) :
    (s.addLogEntry env request_info peer_node_info).Consistent env := by
  have h1 : Logger.Consistent env
      ({ s with
        log_entries_request_ :=
          { s.log_entries_request_ with
            entries := s.log_entries_request_.entries ++
              [buildLogEntry env s.project_id_ request_info peer_node_info] }
        size_ := wrapInt32 (s.size_ +
          (env.ByteSizeLong (buildLogEntry env s.project_id_ request_info peer_node_info) :
            Int)) } : Logger σ) := by
    constructor
    · simp only [wrapInt32_of_fits _ hfit]
      simp only [sizeSum_append, sizeSum_singleton, h.1]
    · intro e he
      simp only [List.mem_append, List.mem_singleton] at he
      rcases he with he | he
      · exact h.2 e he
      · rw [he]
        rfl
  unfold Logger.addLogEntry
  simp only
  split
  · exact consistent_flush env _ h1
  · exact h1

theorem consistent_exportLogEntry (env : Deps)
    (exportLogs : σ → List WriteLogEntriesRequest → σ) (s : Logger σ)
    (h : s.Consistent env) : (s.exportLogEntry exportLogs).Consistent env := by
  have h1 := consistent_flush env s h
  unfold Logger.exportLogEntry
  simp only
  split
  · exact h1
  · exact h1

theorem consistent_step (env : Deps) (exportLogs : σ → List WriteLogEntriesRequest → σ)
    (s : Logger σ) (c : Call) (h : s.Consistent env)
    (hno : Logger.noOverflow env exportLogs s [c] = true) :
    (s.step env exportLogs c).Consistent env := by
  cases c with
  | addLogEntry request_info peer_node_info =>
    simp only [noOverflow_add, Bool.and_eq_true] at hno
    exact consistent_addLogEntry env s _ _ h hno.1
  | flush => exact consistent_flush env s h
  | exportLogEntry => exact consistent_exportLogEntry env exportLogs s h

theorem consistent_run (env : Deps) (exportLogs : σ → List WriteLogEntriesRequest → σ)
    (cs : List Call) (s : Logger σ) (h : s.Consistent env)
    (hno : Logger.noOverflow env exportLogs s cs = true) :
    (s.run env exportLogs cs).Consistent env := by
  induction cs generalizing s with
  | nil => exact h
  | cons c cs ih =>
    rw [noOverflow_cons, Bool.and_eq_true] at hno
    rw [run_cons]
    exact ih _ (consistent_step env exportLogs s c h hno.1) hno.2

theorem consistent_reachable (env : Deps) (exportLogs : σ → List WriteLogEntriesRequest → σ)
    (local_node_info : NodeInfo) (exporter : σ) (limit : Int) (cs : List Call)
    (hno : Logger.noOverflow env exportLogs (newLogger env local_node_info exporter limit) cs =
      true) :
    ((newLogger env local_node_info exporter limit).run env exportLogs cs).Consistent env :=
  consistent_run env exportLogs cs _ (consistent_newLogger env local_node_info exporter limit)
    hno

end Invariant

/-! ## The contract of `flush` -/

/-- C3. For every logger state: when the size accumulator is zero, `flush`
returns false and the state (current batch, accumulator, pending queue and all
else) is unchanged; when the accumulator is non-zero, `flush` returns true and
afterwards the current batch has no entries and the accumulator is zero. -/
theorem flush_contract {σ : Type} (s : Logger σ) :
    (s.size_ = 0 →
      s.flush.1 = false ∧ s.flush.2.log_entries_request_ = s.log_entries_request_ ∧
        s.flush.2.size_ = s.size_ ∧ s.flush.2.request_queue_ = s.request_queue_ ∧
        s.flush.2 = s) ∧
    (s.size_ ≠ 0 →
      s.flush.1 = true ∧ s.flush.2.log_entries_request_.entries = [] ∧
        s.flush.2.size_ = 0) := by
  constructor
  · intro h
    rw [flush_zero s h]
    exact ⟨rfl, rfl, rfl, rfl, rfl⟩
  · intro h
    rw [flush_nonzero s h]
    exact ⟨rfl, rfl, rfl⟩

/-- Witness of C3: the fresh sample logger (accumulator 0) is left alone by
`flush`, and the sample logger after one entry (accumulator 400) is emptied. -/
theorem flush_contract_witness :
    (sampleLogger.flush.1 = false ∧
      sampleLogger.flush.2.log_entries_request_ = sampleLogger.log_entries_request_ ∧
      sampleLogger.flush.2.size_ = sampleLogger.size_ ∧
      sampleLogger.flush.2.request_queue_ = sampleLogger.request_queue_ ∧
      sampleLogger.flush.2 = sampleLogger) ∧
    ((sampleLogger.addLogEntry sampleDeps sampleRequest sampleNode).size_ = 400 ∧
      (sampleLogger.addLogEntry sampleDeps sampleRequest sampleNode).flush.1 = true ∧
      (sampleLogger.addLogEntry sampleDeps sampleRequest
        sampleNode).flush.2.log_entries_request_.entries = [] ∧
      (sampleLogger.addLogEntry sampleDeps sampleRequest sampleNode).flush.2.size_ = 0) :=
  ⟨(flush_contract sampleLogger).1 (by decide),
    by decide,
    (flush_contract (sampleLogger.addLogEntry sampleDeps sampleRequest sampleNode)).2
      (by decide)⟩

section Export

variable {σ : Type}

theorem exportLogEntry_idle (exportLogs : σ → List WriteLogEntriesRequest → σ) (s : Logger σ)
    (hz : s.size_ = 0) (hq : s.request_queue_ = []) : s.exportLogEntry exportLogs = s := by
  unfold Logger.exportLogEntry
  rw [flush_zero s hz]
  simp [hq]

theorem exportLogEntry_queue_only (exportLogs : σ → List WriteLogEntriesRequest → σ)
    (s : Logger σ) (hz : s.size_ = 0) (hq : s.request_queue_ ≠ []) :
    s.exportLogEntry exportLogs =
      { s with
        exporter_ := exportLogs s.exporter_ s.request_queue_
        request_queue_ := [] } := by
  unfold Logger.exportLogEntry
  rw [flush_zero s hz]
  simp [hq]

theorem exportLogEntry_nonzero (exportLogs : σ → List WriteLogEntriesRequest → σ)
    (s : Logger σ) (hz : s.size_ ≠ 0) :
    s.exportLogEntry exportLogs =
      { s with
        log_entries_request_ := template s.log_entries_request_
        exporter_ := exportLogs s.exporter_ (s.request_queue_ ++ [s.log_entries_request_])
        request_queue_ := []
        size_ := 0 } := by
  unfold Logger.exportLogEntry
  rw [flush_nonzero s hz]
  simp

theorem exportLogEntry_size (exportLogs : σ → List WriteLogEntriesRequest → σ)
    (s : Logger σ) : (s.exportLogEntry exportLogs).size_ = 0 := by
  by_cases hz : s.size_ = 0
  · by_cases hq : s.request_queue_ = []
    · rw [exportLogEntry_idle exportLogs s hz hq, hz]
    · rw [exportLogEntry_queue_only exportLogs s hz hq]
      exact hz
  · rw [exportLogEntry_nonzero exportLogs s hz]

theorem exportLogEntry_queue (exportLogs : σ → List WriteLogEntriesRequest → σ)
    (s : Logger σ) : (s.exportLogEntry exportLogs).request_queue_ = [] := by
  by_cases hz : s.size_ = 0
  · by_cases hq : s.request_queue_ = []
    · rw [exportLogEntry_idle exportLogs s hz hq, hq]
    · rw [exportLogEntry_queue_only exportLogs s hz hq]
  · rw [exportLogEntry_nonzero exportLogs s hz]

end Export

section Template

variable {σ : Type}

theorem sameTemplate_iff (r r0 : WriteLogEntriesRequest) :
    sameTemplate r r0 ↔ template r = template r0 := by
  cases r
  cases r0
  simp [sameTemplate, template]

theorem sameTemplate_template (r r0 : WriteLogEntriesRequest) (h : sameTemplate r r0) :
    sameTemplate (template r) r0 := h

theorem templateInv_flush (r0 : WriteLogEntriesRequest)
    (s : Logger (List (List WriteLogEntriesRequest))) (h : s.TemplateInv r0) :
    s.flush.2.TemplateInv r0 := by
  by_cases hz : s.size_ = 0
  · rw [flush_zero s hz]
    exact h
  · rw [flush_nonzero s hz]
    refine ⟨h.1, ?_, h.2.2⟩
    intro r hr
    simp only [List.mem_append, List.mem_singleton] at hr
    rcases hr with hr | hr
    · exact h.2.1 r hr
    · rw [hr]
      exact h.1

theorem templateInv_addLogEntry (env : Deps) (r0 : WriteLogEntriesRequest)
    (s : Logger (List (List WriteLogEntriesRequest))) (request_info : RequestInfo)
    (peer_node_info : NodeInfo) (h : s.TemplateInv r0) :
    (s.addLogEntry env request_info peer_node_info).TemplateInv r0 := by
  have h1 : Logger.TemplateInv r0
      ({ s with
        log_entries_request_ :=
          { s.log_entries_request_ with
            entries := s.log_entries_request_.entries ++
              [buildLogEntry env s.project_id_ request_info peer_node_info] }
        size_ := wrapInt32 (s.size_ +
          (env.ByteSizeLong (buildLogEntry env s.project_id_ request_info peer_node_info) :
            Int)) } : Logger (List (List WriteLogEntriesRequest))) :=
    ⟨h.1, h.2.1, h.2.2⟩
  unfold Logger.addLogEntry
  simp only
  split
  · exact templateInv_flush r0 _ h1
  · exact h1

theorem templateInv_exportLogEntry (r0 : WriteLogEntriesRequest)
    (s : Logger (List (List WriteLogEntriesRequest))) (h : s.TemplateInv r0) :
    (s.exportLogEntry recordLogs).TemplateInv r0 := by
  have h1 := templateInv_flush r0 s h
  unfold Logger.exportLogEntry
  simp only
  split
  · exact h1
  · refine ⟨h1.1, ?_, ?_⟩
    · intro r hr
      simp at hr
    · intro q hq r hr
      simp only [recordLogs, List.mem_append, List.mem_singleton] at hq
      rcases hq with hq | hq
      · exact h1.2.2 q hq r hr
      · rw [hq] at hr
        exact h1.2.1 r hr

theorem templateInv_run (env : Deps) (r0 : WriteLogEntriesRequest) (cs : List Call)
    (s : Logger (List (List WriteLogEntriesRequest))) (h : s.TemplateInv r0) :
    (s.run env recordLogs cs).TemplateInv r0 := by
  induction cs generalizing s with
  | nil => exact h
  | cons c cs ih =>
    rw [run_cons]
    apply ih
    cases c with
    | addLogEntry request_info peer_node_info => exact templateInv_addLogEntry env r0 s _ _ h
    | flush => exact templateInv_flush r0 s h
    | exportLogEntry => exact templateInv_exportLogEntry r0 s h

end Template

/-- C7. When `exportLogEntry` is called twice in a row, the second call leaves the
logger state unchanged, for every state and every exporter; with the recording
exporter the record of exporter calls is unchanged as well, so the second call
invokes the exporter zero times. -/
theorem exportLogEntry_twice {σ : Type} (exportLogs : σ → List WriteLogEntriesRequest → σ)
    (s : Logger σ) (t : Logger (List (List WriteLogEntriesRequest))) :
    (s.exportLogEntry exportLogs).exportLogEntry exportLogs = s.exportLogEntry exportLogs ∧
    (t.exportLogEntry recordLogs).exportLogEntry recordLogs = t.exportLogEntry recordLogs ∧
    ((t.exportLogEntry recordLogs).exportLogEntry recordLogs).exporter_.length =
      (t.exportLogEntry recordLogs).exporter_.length := by
  have h : ∀ {τ : Type} (f : τ → List WriteLogEntriesRequest → τ) (u : Logger τ),
      (u.exportLogEntry f).exportLogEntry f = u.exportLogEntry f := fun f u =>
    exportLogEntry_idle f _ (exportLogEntry_size f u) (exportLogEntry_queue f u)
  exact ⟨h exportLogs s, h recordLogs t, by rw [h recordLogs t]⟩

/-- C8. The exporter is never invoked with zero batches.  For every state of a
logger with the recording exporter, `exportLogEntry` either makes no exporter
call or makes exactly one, whose argument is a non-empty sequence of batches
(the pending queue after the internal flush); it makes no call when the
accumulator is zero and the pending queue is empty. -/
theorem exporter_never_called_with_no_batches
    (s : Logger (List (List WriteLogEntriesRequest))) :
    ((s.exportLogEntry recordLogs).exporter_ = s.exporter_ ∨
      ∃ q : List WriteLogEntriesRequest, q ≠ [] ∧ q = s.flush.2.request_queue_ ∧
        (s.exportLogEntry recordLogs).exporter_ = s.exporter_ ++ [q]) ∧
    (s.size_ = 0 ∧ s.request_queue_ = [] →
      (s.exportLogEntry recordLogs).exporter_ = s.exporter_) := by
  constructor
  · by_cases hz : s.size_ = 0
    · by_cases hq : s.request_queue_ = []
      · left
        rw [exportLogEntry_idle recordLogs s hz hq]
      · right
        refine ⟨s.request_queue_, hq, ?_, ?_⟩
        · rw [flush_zero s hz]
        · rw [exportLogEntry_queue_only recordLogs s hz hq]
          rfl
    · right
      refine ⟨s.request_queue_ ++ [s.log_entries_request_], by simp, ?_, ?_⟩
      · rw [flush_nonzero s hz]
      · rw [exportLogEntry_nonzero recordLogs s hz]
        rfl
  · intro h
    rw [exportLogEntry_idle recordLogs s h.1 h.2]

/-- Witness of C8: the fresh sample logger has accumulator zero and an empty
queue, and its export makes no exporter call. -/
theorem exporter_never_called_with_no_batches_witness :
    (sampleLogger.size_ = 0 ∧ sampleLogger.request_queue_ = []) ∧
    (sampleLogger.exportLogEntry recordLogs).exporter_ = sampleLogger.exporter_ :=
  ⟨by decide, (exporter_never_called_with_no_batches sampleLogger).2 (by decide)⟩

/-- C9. Template invariant: in every state reachable from construction by
`addLogEntry`, `flush` and `exportLogEntry` calls, the current batch, every
batch in the pending queue and every batch ever passed to the (recording)
exporter have the same log name, the same monitored resource and the same
common label map as the batch built by the constructor. -/
theorem template_invariant (env : Deps) (local_node_info : NodeInfo) (limit : Int)
    (calls : List Call) :
    sameTemplate
        ((newLogger env local_node_info [] limit).run env recordLogs calls).log_entries_request_
        (newLogger env local_node_info ([] : List (List WriteLogEntriesRequest))
          limit).log_entries_request_ ∧
    (∀ r ∈ ((newLogger env local_node_info [] limit).run env recordLogs calls).request_queue_,
      sameTemplate r (newLogger env local_node_info ([] : List (List WriteLogEntriesRequest))
        limit).log_entries_request_) ∧
    ∀ q ∈ ((newLogger env local_node_info [] limit).run env recordLogs calls).exporter_,
      ∀ r ∈ q, sameTemplate r
        (newLogger env local_node_info ([] : List (List WriteLogEntriesRequest))
          limit).log_entries_request_ := by
  apply templateInv_run
  refine ⟨⟨rfl, rfl, rfl⟩, ?_, ?_⟩
  · intro r hr
    simp [newLogger] at hr
  · intro q hq
    simp [newLogger] at hq

/-! ## The size accumulator -/

section Accumulator

variable {σ : Type}

end Accumulator

section Policy

variable {σ : Type}

end Policy

/-- C12. Pending-queue order: for every logger state with a non-zero accumulator,
`flush` yields the old pending queue with the old current batch (the batch
itself, so its entries in their original order) appended at the tail.  The
batches already queued are unchanged and keep their positions, and the new
batch is the last one: the queue is ordered oldest flush first. -/
theorem flush_appends_at_tail {σ : Type} (s : Logger σ) (h : s.size_ ≠ 0) :
    s.flush.2.request_queue_ = s.request_queue_ ++ [s.log_entries_request_] ∧
    s.flush.2.request_queue_.take s.request_queue_.length = s.request_queue_ ∧
    (∀ i : Nat, i < s.request_queue_.length →
      s.flush.2.request_queue_[i]? = s.request_queue_[i]?) ∧
    s.flush.2.request_queue_.getLast? = some s.log_entries_request_ ∧
    s.flush.2.request_queue_.length = s.request_queue_.length + 1 := by
  rw [flush_nonzero s h]
  refine ⟨rfl, ?_, ?_, ?_, ?_⟩
  · simp
  · intro i hi
    simp only
    rw [List.getElem?_append_left hi]
  · simp
  · simp

/-- Witness of C12: the sample logger with one queued batch of three entries and
one entry in the current batch (accumulator 400); `flush` puts the current
batch behind the queued one. -/
theorem flush_appends_at_tail_witness :
    (sampleLogger.run sampleDeps recordLogs
        (addCalls [(sampleRequest, sampleNode), (sampleRequest, sampleNode),
          (sampleRequest, sampleNode), (sampleRequest, sampleNode)])).size_ = 400 ∧
    (sampleLogger.run sampleDeps recordLogs
        (addCalls [(sampleRequest, sampleNode), (sampleRequest, sampleNode),
          (sampleRequest, sampleNode),
          (sampleRequest, sampleNode)])).flush.2.request_queue_ =
      (sampleLogger.run sampleDeps recordLogs
        (addCalls [(sampleRequest, sampleNode), (sampleRequest, sampleNode),
          (sampleRequest, sampleNode), (sampleRequest, sampleNode)])).request_queue_ ++
        [(sampleLogger.run sampleDeps recordLogs
          (addCalls [(sampleRequest, sampleNode), (sampleRequest, sampleNode),
            (sampleRequest, sampleNode),
            (sampleRequest, sampleNode)])).log_entries_request_] ∧
    (sampleLogger.run sampleDeps recordLogs
        (addCalls [(sampleRequest, sampleNode), (sampleRequest, sampleNode),
          (sampleRequest, sampleNode),
          (sampleRequest, sampleNode)])).flush.2.request_queue_.map
        (fun r => r.entries.length) = [3, 1] :=
  ⟨by decide,
    (flush_appends_at_tail
      (sampleLogger.run sampleDeps recordLogs
        (addCalls [(sampleRequest, sampleNode), (sampleRequest, sampleNode),
          (sampleRequest, sampleNode), (sampleRequest, sampleNode)])) (by decide)).1,
    by decide⟩

/-! ## Construction and entry fields -/

section Fields

variable {σ : Type}

theorem mapFind_mapSet (m : StringMap) (k v k' : String) :
    mapFind (mapSet m k v) k' = if k = k' then some v else mapFind m k' := by
  induction m with
  | nil => simp [mapSet, mapFind]
  | cons p t ih =>
    obtain ⟨a, b⟩ := p
    simp only [mapSet]
    by_cases h : a = k
    · subst h
      by_cases h2 : a = k' <;> simp [mapFind, h2]
    · by_cases h2 : k = k'
      · subst h2
        simp [mapFind, h, ih]
      · simp [mapFind, h, ih, h2]

theorem mapFind_eq_none_iff (m : StringMap) (k : String) :
    mapFind m k = none ↔ ∀ v : String, (k, v) ∉ m := by
  induction m with
  | nil => simp [mapFind]
  | cons p t ih =>
    obtain ⟨a, b⟩ := p
    by_cases h : a = k
    · subst h
      simp only [mapFind, if_true]
      constructor
      · intro hn
        cases hn
      · intro hn
        exact absurd (List.mem_cons_self _ _) (hn b)
    · simp only [mapFind, if_neg h, ih, List.mem_cons, Prod.mk.injEq, not_or, not_and]
      constructor
      · intro hn v
        exact ⟨fun hk => absurd hk.symm h, hn v⟩
      · intro hn v
        exact (hn v).2

theorem mapFind_ne_none_iff (m : StringMap) (k : String) :
    mapFind m k ≠ none ↔ ∃ v : String, (k, v) ∈ m := by
  rw [Ne, mapFind_eq_none_iff]
  push_neg
  rfl

theorem newLogger_project_id (env : Deps) (local_node_info : NodeInfo) (exporter : σ)
    (limit : Int) :
    (newLogger env local_node_info exporter limit).project_id_ =
      (mapFind local_node_info.platform_metadata env.kGCPProjectKey).getD "" := by
  unfold newLogger
  simp only
  cases mapFind local_node_info.platform_metadata env.kGCPProjectKey <;> rfl

end Fields

/-- C13. For every local node metadata map, the constructor passes to
`getMonitoredResource` the resource type `resource_type`, which is the container
type if and only if the cluster-name key is present in the platform metadata
and the GCE instance type if and only if it is absent; metadata with no
cluster-name key gives the instance variant.  (`hne`: the two resource type
names of `constants.h` are different strings.) -/
theorem resource_type_by_cluster_name {σ : Type} (env : Deps) (local_node_info : NodeInfo)
    (exporter : σ) (limit : Int)
    (hne : env.kContainerMonitoredResource ≠ env.kGCEInstanceMonitoredResource) :
    (newLogger env local_node_info exporter limit).log_entries_request_.resource =
      env.getMonitoredResource (resource_type env local_node_info) local_node_info ∧
    (resource_type env local_node_info = env.kContainerMonitoredResource ↔
      ∃ v : String, (env.kGCPClusterNameKey, v) ∈ local_node_info.platform_metadata) ∧
    (resource_type env local_node_info = env.kGCEInstanceMonitoredResource ↔
      ∀ v : String, (env.kGCPClusterNameKey, v) ∉ local_node_info.platform_metadata) := by
  refine ⟨rfl, ?_, ?_⟩
  · rw [← mapFind_ne_none_iff]
    unfold resource_type
    cases h : mapFind local_node_info.platform_metadata env.kGCPClusterNameKey with
    | none => simpa using fun h2 => hne h2.symm
    | some v => simp
  · rw [← mapFind_eq_none_iff]
    unfold resource_type
    cases h : mapFind local_node_info.platform_metadata env.kGCPClusterNameKey with
    | none => simp
    | some v => simpa using hne

/-- Witness of C13 with the sample constants: the sample node has no cluster
name and gets the instance type; with a cluster name it gets the container
type. -/
theorem resource_type_by_cluster_name_witness :
    (resource_type sampleDeps sampleNode = sampleDeps.kGCEInstanceMonitoredResource ↔
      ∀ v : String, (sampleDeps.kGCPClusterNameKey, v) ∉ sampleNode.platform_metadata) ∧
    (newLogger sampleDeps sampleNode () 1000).log_entries_request_.resource.type =
      "gce_instance" ∧
    (newLogger sampleDeps
      { sampleNode with platform_metadata := [("gcp_gke_cluster_name", "c")] } ()
      1000).log_entries_request_.resource.type = "k8s_container" :=
  ⟨(resource_type_by_cluster_name sampleDeps sampleNode () 1000 (by decide)).2.2,
    by decide, by decide⟩

/-- C14. For every request and every peer node, looking up `source_version` in
the label map of the entry built by `addLogEntry` gives exactly the result of
looking up `version` in the peer's label map, and `source_app` gives that of
`app`: the key is present if and only if the peer has it, with the peer's
value.  When the peer lacks the key, the entry has no pair with that key at
all (it is not present with an empty value). -/
theorem optional_peer_labels (env : Deps) (project_id_ : String) (request_info : RequestInfo)
    (peer_node_info : NodeInfo) :
    mapFind (buildLogEntry env project_id_ request_info peer_node_info).labels
        "source_version" = mapFind peer_node_info.labels "version" ∧
    mapFind (buildLogEntry env project_id_ request_info peer_node_info).labels
        "source_app" = mapFind peer_node_info.labels "app" ∧
    ((∀ v : String, ("version", v) ∉ peer_node_info.labels) →
      ∀ v : String, ("source_version", v) ∉
        (buildLogEntry env project_id_ request_info peer_node_info).labels) ∧
    ((∀ v : String, ("app", v) ∉ peer_node_info.labels) →
      ∀ v : String, ("source_app", v) ∉
        (buildLogEntry env project_id_ request_info peer_node_info).labels) := by
  have hv : mapFind (buildLogEntry env project_id_ request_info peer_node_info).labels
      "source_version" = mapFind peer_node_info.labels "version" := by
    unfold buildLogEntry
    simp only
    cases h1 : mapFind peer_node_info.labels "version" <;>
      cases h2 : mapFind peer_node_info.labels "app" <;>
      simp [mapFind_mapSet, mapFind]
  have ha : mapFind (buildLogEntry env project_id_ request_info peer_node_info).labels
      "source_app" = mapFind peer_node_info.labels "app" := by
    unfold buildLogEntry
    simp only
    cases h1 : mapFind peer_node_info.labels "version" <;>
      cases h2 : mapFind peer_node_info.labels "app" <;>
      simp [mapFind_mapSet, mapFind]
  refine ⟨hv, ha, ?_, ?_⟩
  · intro h
    rw [← mapFind_eq_none_iff] at h ⊢
    rw [hv, h]
  · intro h
    rw [← mapFind_eq_none_iff] at h ⊢
    rw [ha, h]

/-- Witness of C14: the sample peer has the label `app` and no label `version`;
the entry has `source_app` with the peer's value and no `source_version`. -/
theorem optional_peer_labels_witness :
    (∀ v : String, ("source_version", v) ∉
      (buildLogEntry sampleDeps "p" sampleRequest sampleNode).labels) ∧
    mapFind (buildLogEntry sampleDeps "p" sampleRequest sampleNode).labels "source_app" =
      some "a" ∧
    mapFind (buildLogEntry sampleDeps "p" sampleRequest sampleNode).labels "source_version" =
      none :=
  ⟨(optional_peer_labels sampleDeps "p" sampleRequest sampleNode).2.2.1
      (fun v => by simp [sampleNode]),
    by decide, by decide⟩

/-- C15. The entry `addLogEntry` appends, in any state reachable from
construction, is built with the project id of the metadata (empty when the
metadata has none).  If the request's trace-sampled flag is true, its trace is
`"projects/" + project id + "/traces/" + trace id`, its span id is the
request's span id and its sampled flag is true; otherwise all three keep their
defaults (empty, empty, false).  So the sampled flag of the entry is true, and
the trace non-empty, if and only if the request's flag is true. -/
theorem trace_fields_iff_sampled {σ : Type} (env : Deps)
    (exportLogs : σ → List WriteLogEntriesRequest → σ) (local_node_info : NodeInfo)
    (exporter : σ) (limit : Int) (calls : List Call) (request_info : RequestInfo)
    (peer_node_info : NodeInfo) :
    (((newLogger env local_node_info exporter limit).run env exportLogs calls).addLogEntry env
        request_info peer_node_info).pendingEntries =
      ((newLogger env local_node_info exporter limit).run env exportLogs
          calls).pendingEntries ++
        [buildLogEntry env
          ((mapFind local_node_info.platform_metadata env.kGCPProjectKey).getD "")
          request_info peer_node_info] ∧
    (request_info.b3_trace_sampled = true →
      (buildLogEntry env
          ((mapFind local_node_info.platform_metadata env.kGCPProjectKey).getD "")
          request_info peer_node_info).trace =
        "projects/" ++ (mapFind local_node_info.platform_metadata env.kGCPProjectKey).getD "" ++
          "/traces/" ++ request_info.b3_trace_id ∧
      (buildLogEntry env
          ((mapFind local_node_info.platform_metadata env.kGCPProjectKey).getD "")
          request_info peer_node_info).span_id = request_info.b3_span_id ∧
      (buildLogEntry env
          ((mapFind local_node_info.platform_metadata env.kGCPProjectKey).getD "")
          request_info peer_node_info).trace_sampled = true) ∧
    (request_info.b3_trace_sampled = false →
      (buildLogEntry env
          ((mapFind local_node_info.platform_metadata env.kGCPProjectKey).getD "")
          request_info peer_node_info).trace = "" ∧
      (buildLogEntry env
          ((mapFind local_node_info.platform_metadata env.kGCPProjectKey).getD "")
          request_info peer_node_info).span_id = "" ∧
      (buildLogEntry env
          ((mapFind local_node_info.platform_metadata env.kGCPProjectKey).getD "")
          request_info peer_node_info).trace_sampled = false) ∧
    ((buildLogEntry env
          ((mapFind local_node_info.platform_metadata env.kGCPProjectKey).getD "")
          request_info peer_node_info).trace_sampled = true ↔
      request_info.b3_trace_sampled = true) ∧
    ((buildLogEntry env
          ((mapFind local_node_info.platform_metadata env.kGCPProjectKey).getD "")
          request_info peer_node_info).trace ≠ "" ↔
      request_info.b3_trace_sampled = true) ∧
    (mapFind local_node_info.platform_metadata env.kGCPProjectKey = none →
      request_info.b3_trace_sampled = true →
      (buildLogEntry env
          ((mapFind local_node_info.platform_metadata env.kGCPProjectKey).getD "")
          request_info peer_node_info).trace =
        "projects/" ++ "" ++ "/traces/" ++ request_info.b3_trace_id) := by
  have hne : ∀ a b : String, "projects/" ++ a ++ "/traces/" ++ b ≠ "" := by
    intro a b h
    have hl := congrArg String.length h
    simp only [String.length_append] at hl
    have h9 : "projects/".length = 9 := by decide
    have h0 : "".length = 0 := by decide
    omega
  refine ⟨?_, ?_, ?_, ?_, ?_, ?_⟩
  · rw [addLogEntry_pendingEntries, run_project_id, newLogger_project_id]
  · intro h
    simp [buildLogEntry, h]
  · intro h
    simp [buildLogEntry, h]
  · cases h : request_info.b3_trace_sampled <;> simp [buildLogEntry, h]
  · cases h : request_info.b3_trace_sampled
    · simp [buildLogEntry, h]
    · simp only [buildLogEntry, h, if_true, iff_true]
      exact hne _ _
  · intro hn h
    simp [buildLogEntry, h, hn]

/-- Witness of C15: a sampled sample request on a logger whose metadata has no
project id gets the trace `projects//traces/t`, its span id and the flag. -/
theorem trace_fields_iff_sampled_witness :
    (buildLogEntry sampleDeps
        ((mapFind ({ sampleNode with platform_metadata := [] } : NodeInfo).platform_metadata
          sampleDeps.kGCPProjectKey).getD "")
        { sampleRequest with b3_trace_sampled := true, b3_trace_id := "t", b3_span_id := "s" }
        sampleNode).trace = "projects//traces/t" ∧
    (buildLogEntry sampleDeps
        ((mapFind ({ sampleNode with platform_metadata := [] } : NodeInfo).platform_metadata
          sampleDeps.kGCPProjectKey).getD "")
        { sampleRequest with b3_trace_sampled := true, b3_trace_id := "t", b3_span_id := "s" }
        sampleNode).span_id = "s" ∧
    (buildLogEntry sampleDeps "p" sampleRequest sampleNode).trace = "" :=
  ⟨(trace_fields_iff_sampled sampleDeps recordLogs { sampleNode with platform_metadata := [] }
      [] 1000 []
      { sampleRequest with b3_trace_sampled := true, b3_trace_id := "t", b3_span_id := "s" }
      sampleNode).2.2.2.2.2 (by decide) (by decide),
    by decide, by decide⟩

/-! ## Timestamp and latency -/

theorem tdiv_tmod_billion (d : Int) :
    Int.tdiv d 1000000000 * 1000000000 + Int.tmod d 1000000000 = d ∧
    (0 ≤ d → 0 ≤ Int.tdiv d 1000000000 ∧ 0 ≤ Int.tmod d 1000000000 ∧
      Int.tmod d 1000000000 < 1000000000) ∧
    (d ≤ 0 → Int.tdiv d 1000000000 ≤ 0 ∧ Int.tmod d 1000000000 ≤ 0 ∧
      -1000000000 < Int.tmod d 1000000000) := by
  have hsum := Int.tdiv_add_tmod' d 1000000000
  refine ⟨hsum, ?_, ?_⟩
  · intro hd
    have hq : Int.tdiv d 1000000000 = d / 1000000000 := Int.tdiv_eq_ediv hd (by decide)
    rw [hq] at hsum ⊢
    omega
  · intro hd
    have hn : Int.tdiv d 1000000000 = -((-d) / 1000000000) := by
      have h1 := Int.neg_tdiv (-d) 1000000000
      rw [Int.neg_neg] at h1
      rw [h1, Int.tdiv_eq_ediv (by omega) (by decide)]
    rw [hn] at hsum ⊢
    omega

/-- C16. Timestamp split: for every request start time `t`, a whole number of
nanoseconds since the epoch (negative before the epoch), the timestamp of the
built entry has `seconds = floor (t / 10^9)` and
`nanos = t - seconds * 10^9`, so `seconds * 10^9 + nanos = t` and
`0 ≤ nanos < 10^9`. -/
theorem timestamp_split (env : Deps) (project_id_ : String) (request_info : RequestInfo)
    (peer_node_info : NodeInfo) :
    (buildLogEntry env project_id_ request_info peer_node_info).timestamp.seconds =
      ⌊(request_info.start_time : ℚ) / 1000000000⌋ ∧
    (buildLogEntry env project_id_ request_info peer_node_info).timestamp.nanos =
      request_info.start_time -
        (buildLogEntry env project_id_ request_info peer_node_info).timestamp.seconds *
          1000000000 ∧
    (buildLogEntry env project_id_ request_info peer_node_info).timestamp.seconds * 1000000000 +
        (buildLogEntry env project_id_ request_info peer_node_info).timestamp.nanos =
      request_info.start_time ∧
    0 ≤ (buildLogEntry env project_id_ request_info peer_node_info).timestamp.nanos ∧
    (buildLogEntry env project_id_ request_info peer_node_info).timestamp.nanos <
      1000000000 := by
  have hs : (buildLogEntry env project_id_ request_info peer_node_info).timestamp.seconds =
      request_info.start_time / 1000000000 := by
    simp only [buildLogEntry, ToUnixSeconds, nanosPerSecond]
    exact Int.fdiv_eq_ediv _ (by decide)
  have hn : (buildLogEntry env project_id_ request_info peer_node_info).timestamp.nanos =
      request_info.start_time -
        (buildLogEntry env project_id_ request_info peer_node_info).timestamp.seconds *
          1000000000 := by
    simp only [buildLogEntry, FromUnixSeconds, nanosPerSecond, Int.tdiv_one]
  have hfloor : ⌊(request_info.start_time : ℚ) / 1000000000⌋ =
      request_info.start_time / 1000000000 := by
    exact_mod_cast Rat.floor_intCast_div_natCast request_info.start_time 1000000000
  refine ⟨by rw [hs, hfloor], hn, ?_, ?_, ?_⟩
  · rw [hn]
    omega
  · rw [hn, hs]
    omega
  · rw [hn, hs]
    omega

/-- Witness of C16: one nanosecond before the epoch is second -1 plus 999999999
nanoseconds; the sample start time 1500000000 is second 1 plus 500000000. -/
theorem timestamp_split_witness :
    (buildLogEntry sampleDeps "p" { sampleRequest with start_time := -1 }
      sampleNode).timestamp = { seconds := -1, nanos := 999999999 } ∧
    (buildLogEntry sampleDeps "p" sampleRequest sampleNode).timestamp =
      { seconds := 1, nanos := 500000000 } ∧
    0 ≤ (buildLogEntry sampleDeps "p" { sampleRequest with start_time := -1 }
      sampleNode).timestamp.nanos :=
  ⟨by decide, by decide,
    (timestamp_split sampleDeps "p" { sampleRequest with start_time := -1 }
      sampleNode).2.2.2.1⟩

/-- C17. Latency split: for every request duration `d`, a whole number of
nanoseconds, the HTTP latency of the built entry has `seconds` equal to
`d / 10^9` truncated toward zero and `nanos` equal to the remainder, so
`seconds * 10^9 + nanos = d`, `|nanos| < 10^9` and `|seconds| * 10^9 ≤ |d|`;
the remainder has the sign of `d`, and for `d ≥ 0` both fields are
non-negative. -/
theorem latency_split (env : Deps) (project_id_ : String) (request_info : RequestInfo)
    (peer_node_info : NodeInfo) :
    (buildLogEntry env project_id_ request_info peer_node_info).http_request.latency.seconds =
      Int.tdiv request_info.duration 1000000000 ∧
    (buildLogEntry env project_id_ request_info peer_node_info).http_request.latency.nanos =
      Int.tmod request_info.duration 1000000000 ∧
    (buildLogEntry env project_id_ request_info peer_node_info).http_request.latency.seconds *
          1000000000 +
        (buildLogEntry env project_id_ request_info peer_node_info).http_request.latency.nanos =
      request_info.duration ∧
    |(buildLogEntry env project_id_ request_info peer_node_info).http_request.latency.nanos| <
      1000000000 ∧
    |(buildLogEntry env project_id_ request_info peer_node_info).http_request.latency.seconds| *
        1000000000 ≤ |request_info.duration| ∧
    (0 ≤ request_info.duration →
      0 ≤ (buildLogEntry env project_id_ request_info
        peer_node_info).http_request.latency.seconds ∧
      0 ≤ (buildLogEntry env project_id_ request_info
        peer_node_info).http_request.latency.nanos) ∧
    (request_info.duration ≤ 0 →
      (buildLogEntry env project_id_ request_info
        peer_node_info).http_request.latency.seconds ≤ 0 ∧
      (buildLogEntry env project_id_ request_info
        peer_node_info).http_request.latency.nanos ≤ 0) := by
  have hs : (buildLogEntry env project_id_ request_info
      peer_node_info).http_request.latency.seconds =
      Int.tdiv request_info.duration 1000000000 := by
    simp only [buildLogEntry, IDivDuration, nanosPerSecond]
  have hn : (buildLogEntry env project_id_ request_info
      peer_node_info).http_request.latency.nanos =
      Int.tmod request_info.duration 1000000000 := by
    simp only [buildLogEntry, IDivDuration, nanosPerSecond, Int.tdiv_one]
  have h := tdiv_tmod_billion request_info.duration
  rw [hs, hn]
  refine ⟨rfl, rfl, h.1, ?_, ?_, ?_, ?_⟩
  · rw [abs_lt]
    rcases Int.le_total 0 request_info.duration with hd | hd
    · have := h.2.1 hd
      omega
    · have := h.2.2 hd
      omega
  · rcases Int.le_total 0 request_info.duration with hd | hd
    · have := h.2.1 hd
      rw [abs_of_nonneg this.1, abs_of_nonneg hd]
      omega
    · have := h.2.2 hd
      rw [abs_of_nonpos this.1, abs_of_nonpos hd]
      omega
  · intro hd
    exact ⟨(h.2.1 hd).1, (h.2.1 hd).2.1⟩
  · intro hd
    exact ⟨(h.2.2 hd).1, (h.2.2 hd).2.1⟩

/-- Witness of C17: the sample request lasts 2500000000 ns, split into 2 s and
500000000 ns; a duration of -2500000001 ns splits into -2 s and -500000001 ns. -/
theorem latency_split_witness :
    (0 ≤ (buildLogEntry sampleDeps "p" sampleRequest sampleNode).http_request.latency.seconds ∧
      0 ≤ (buildLogEntry sampleDeps "p" sampleRequest sampleNode).http_request.latency.nanos) ∧
    (buildLogEntry sampleDeps "p" sampleRequest sampleNode).http_request.latency =
      { seconds := 2, nanos := 500000000 } ∧
    (buildLogEntry sampleDeps "p" { sampleRequest with duration := -2500000001 }
      sampleNode).http_request.latency = { seconds := -2, nanos := -500000001 } :=
  ⟨(latency_split sampleDeps "p" sampleRequest sampleNode).2.2.2.2.2.1 (by decide),
    by decide, by decide⟩

/-! ## Size budget, emptiness and the accumulator -/

section Budget

variable {σ : Type}

theorem sizeSum_pos_of_forall (env : Deps) (es : List LogEntry)
    (h : ∀ e ∈ es, 1 ≤ env.ByteSizeLong e) (hne : es ≠ []) : 0 < sizeSum env es := by
  cases es with
  | nil => exact absurd rfl hne
  | cons e t =>
    have h1 := h e (List.mem_cons_self e t)
    have h2 : sizeSum env (e :: t) = (env.ByteSizeLong e : Int) + sizeSum env t := by
      simp [sizeSum]
    have h3 := sizeSum_nonneg env t
    omega

theorem entriesBuilt_newLogger (env : Deps) (local_node_info : NodeInfo) (exporter : σ)
    (limit : Int) : (newLogger env local_node_info exporter limit).EntriesBuilt env := by
  intro e he
  simp [newLogger] at he

theorem entriesBuilt_flush (env : Deps) (s : Logger σ) (h : s.EntriesBuilt env) :
    s.flush.2.EntriesBuilt env := by
  by_cases hz : s.size_ = 0
  · rw [flush_zero s hz]
    exact h
  · rw [flush_nonzero s hz]
    intro e he
    simp [template] at he

theorem entriesBuilt_addLogEntry (env : Deps) (s : Logger σ) (request_info : RequestInfo)
    (peer_node_info : NodeInfo) (h : s.EntriesBuilt env) :
    (s.addLogEntry env request_info peer_node_info).EntriesBuilt env := by
  have h1 : Logger.EntriesBuilt env
      ({ s with
        log_entries_request_ :=
          { s.log_entries_request_ with
            entries := s.log_entries_request_.entries ++
              [buildLogEntry env s.project_id_ request_info peer_node_info] }
        size_ := wrapInt32 (s.size_ +
          (env.ByteSizeLong (buildLogEntry env s.project_id_ request_info peer_node_info) :
            Int)) } : Logger σ) := by
    intro e he
    simp only [List.mem_append, List.mem_singleton] at he
    rcases he with he | he
    · exact h e he
    · exact ⟨request_info, peer_node_info, he⟩
  unfold Logger.addLogEntry
  simp only
  split
  · exact entriesBuilt_flush env _ h1
  · exact h1

theorem entriesBuilt_exportLogEntry (env : Deps)
    (exportLogs : σ → List WriteLogEntriesRequest → σ) (s : Logger σ)
    (h : s.EntriesBuilt env) : (s.exportLogEntry exportLogs).EntriesBuilt env := by
  have h1 := entriesBuilt_flush env s h
  unfold Logger.exportLogEntry
  simp only
  split
  · exact h1
  · exact h1

theorem entriesBuilt_run (env : Deps) (exportLogs : σ → List WriteLogEntriesRequest → σ)
    (cs : List Call) (s : Logger σ) (h : s.EntriesBuilt env) :
    (s.run env exportLogs cs).EntriesBuilt env := by
  induction cs generalizing s with
  | nil => exact h
  | cons c cs ih =>
    rw [run_cons]
    apply ih
    cases c with
    | addLogEntry request_info peer_node_info => exact entriesBuilt_addLogEntry env s _ _ h
    | flush => exact entriesBuilt_flush env s h
    | exportLogEntry => exact entriesBuilt_exportLogEntry env exportLogs s h

theorem emptyZero_flush (s : Logger σ)
    (hc : s.log_entries_request_.entries = [] → s.size_ = 0) :
    s.flush.2.log_entries_request_.entries = [] → s.flush.2.size_ = 0 := by
  by_cases hz : s.size_ = 0
  · rw [flush_zero s hz]
    exact hc
  · rw [flush_nonzero s hz]
    intro _
    rfl

theorem emptyZero_step (env : Deps) (exportLogs : σ → List WriteLogEntriesRequest → σ)
    (s : Logger σ) (c : Call) (hc : s.log_entries_request_.entries = [] → s.size_ = 0) :
    (s.step env exportLogs c).log_entries_request_.entries = [] →
      (s.step env exportLogs c).size_ = 0 := by
  cases c with
  | addLogEntry request_info peer_node_info =>
    simp only [Logger.step]
    unfold Logger.addLogEntry
    simp only
    split
    · apply emptyZero_flush
      intro he
      simp at he
    · intro he
      simp at he
  | flush => exact emptyZero_flush s hc
  | exportLogEntry =>
    intro _
    exact exportLogEntry_size exportLogs s

theorem noEmptyBatch_flush (s : Logger (List (List WriteLogEntriesRequest)))
    (hc : s.log_entries_request_.entries = [] → s.size_ = 0) (h : s.NoEmptyBatch) :
    s.flush.2.NoEmptyBatch := by
  by_cases hz : s.size_ = 0
  · rw [flush_zero s hz]
    exact h
  · rw [flush_nonzero s hz]
    refine ⟨?_, h.2⟩
    intro r hr
    simp only [List.mem_append, List.mem_singleton] at hr
    rcases hr with hr | hr
    · exact h.1 r hr
    · rw [hr]
      intro he
      exact hz (hc he)

theorem noEmptyBatch_addLogEntry (env : Deps)
    (s : Logger (List (List WriteLogEntriesRequest))) (request_info : RequestInfo)
    (peer_node_info : NodeInfo) (h : s.NoEmptyBatch) :
    (s.addLogEntry env request_info peer_node_info).NoEmptyBatch := by
  unfold Logger.addLogEntry
  simp only
  split
  · refine noEmptyBatch_flush _ ?_ h
    intro he
    simp at he
  · exact h

theorem noEmptyBatch_exportLogEntry (s : Logger (List (List WriteLogEntriesRequest)))
    (hc : s.log_entries_request_.entries = [] → s.size_ = 0) (h : s.NoEmptyBatch) :
    (s.exportLogEntry recordLogs).NoEmptyBatch := by
  have h1 := noEmptyBatch_flush s hc h
  unfold Logger.exportLogEntry
  simp only
  split
  · exact h1
  · refine ⟨?_, ?_⟩
    · intro r hr
      simp at hr
    · intro q hq r hr
      simp only [recordLogs, List.mem_append, List.mem_singleton] at hq
      rcases hq with hq | hq
      · exact h1.2 q hq r hr
      · rw [hq] at hr
        exact h1.1 r hr

theorem noEmptyBatch_run (env : Deps) (cs : List Call)
    (s : Logger (List (List WriteLogEntriesRequest)))
    (hc : s.log_entries_request_.entries = [] → s.size_ = 0)
    (h : s.NoEmptyBatch) : (s.run env recordLogs cs).NoEmptyBatch := by
  induction cs generalizing s with
  | nil => exact h
  | cons c cs ih =>
    rw [run_cons]
    apply ih _ (emptyZero_step env recordLogs s c hc)
    cases c with
    | addLogEntry request_info peer_node_info => exact noEmptyBatch_addLogEntry env s _ _ h
    | flush => exact noEmptyBatch_flush s hc h
    | exportLogEntry => exact noEmptyBatch_exportLogEntry s hc h

end Budget

/-- C19. Assuming every entry built by `addLogEntry` has estimated serialized size
at least 1 (`hsize`) and no arithmetic overflow of the accumulator (`hno`: no
`addLogEntry` of the calls takes the sum out of the `int` range), in every
state reachable from construction by `addLogEntry`, `flush` and
`exportLogEntry` calls the accumulator is zero if and only if the current batch
has no entries. -/
theorem accumulator_zero_iff_no_entries {σ : Type} (env : Deps)
    (exportLogs : σ → List WriteLogEntriesRequest → σ) (local_node_info : NodeInfo)
    (exporter : σ) (limit : Int) (calls : List Call)
    (hsize : ∀ (project_id_ : String) (request_info : RequestInfo) (peer_node_info : NodeInfo),
      1 ≤ env.ByteSizeLong (buildLogEntry env project_id_ request_info peer_node_info))
    (hno : Logger.noOverflow env exportLogs (newLogger env local_node_info exporter limit)
      calls = true) :
    ((newLogger env local_node_info exporter limit).run env exportLogs calls).size_ = 0 ↔
      ((newLogger env local_node_info exporter limit).run env exportLogs
        calls).log_entries_request_.entries = [] := by
  have hc := (consistent_reachable env exportLogs local_node_info exporter limit calls hno).1
  have hb := entriesBuilt_run env exportLogs calls _
    (entriesBuilt_newLogger env local_node_info exporter limit)
  generalize (newLogger env local_node_info exporter limit).run env exportLogs calls = s
    at hc hb
  constructor
  · intro hz
    by_contra hne
    have hp := sizeSum_pos_of_forall env s.log_entries_request_.entries (fun e he => by
      obtain ⟨r, n, hrn⟩ := hb e he
      rw [hrn]
      exact hsize _ _ _) hne
    omega
  · intro he
    rw [hc, he, sizeSum_nil]

/-- Witness of C19 with the sample estimator (400 bytes per entry): after one
entry on the sample logger the accumulator is 400 and the batch is not empty. -/
theorem accumulator_zero_iff_no_entries_witness :
    ((sampleLogger.run sampleDeps recordLogs
        [Call.addLogEntry sampleRequest sampleNode]).size_ = 0 ↔
      (sampleLogger.run sampleDeps recordLogs
        [Call.addLogEntry sampleRequest sampleNode]).log_entries_request_.entries = []) ∧
    (sampleLogger.run sampleDeps recordLogs
        [Call.addLogEntry sampleRequest sampleNode]).size_ = 400 :=
  ⟨accumulator_zero_iff_no_entries sampleDeps recordLogs sampleNode [] 1000
      [Call.addLogEntry sampleRequest sampleNode] (fun _ _ _ => by simp [sampleDeps])
      (by decide),
    by decide⟩

/-- C20. In every state reachable from construction by `addLogEntry`, `flush` and
`exportLogEntry` calls, every batch in the pending queue contains at least one
entry, and so does every batch ever handed to the (recording) exporter.  This
holds for every size estimator with values in the natural numbers, including
one that returns 0. -/
theorem queued_batches_nonempty (env : Deps) (local_node_info : NodeInfo) (limit : Int)
    (calls : List Call) :
    (∀ r ∈ ((newLogger env local_node_info [] limit).run env recordLogs calls).request_queue_,
      r.entries ≠ []) ∧
    ∀ q ∈ ((newLogger env local_node_info [] limit).run env recordLogs calls).exporter_,
      ∀ r ∈ q, r.entries ≠ [] := by
  apply noEmptyBatch_run env calls _ (fun _ => rfl)
  refine ⟨?_, ?_⟩
  · intro r hr
    simp [newLogger] at hr
  · intro q hq
    simp [newLogger] at hq

/-! ## The accumulator at the limits of `int`

Line 155 stores the sum of the accumulator and the `size_t` size of the new
entry into the `int` accumulator.  When the sum leaves the `int` range the
stored value is not the sum of the entry sizes: it can be negative, which
suppresses the size-triggered flush, or zero, which makes `flush` treat a
non-empty batch as empty.  The statements below evaluate the code on such
inputs, with limits an `int` can hold and a positive size for every entry. -/

end Extensions.Stackdriver.Log
